import Mathlib

/-!
Verification of the chess-video-analyzer core against its specification.

The development shallowly embeds the three core components
(`moves/tracker.py`, `position/validator.py`, `notation/generator.py`).
The chess-rules engine used by those components is the external
`python-chess` collaborator (spec section 6); it is modelled here from the
spec's description of its interface: board values, move application,
legal-move enumeration, check / checkmate / stalemate / draw predicates,
and FEN rendering.  Squares are numbered 0..63 exactly as `chess.SQUARES`
(a1 = 0, b1 = 1, ..., h8 = 63); `chess.square_file s = s % 8` and
`chess.square_rank s = s / 8`.
-/

namespace ChessVision

/-- Piece types, as in `chess.PAWN .. chess.KING`. -/
inductive PieceType where
  | pawn
  | knight
  | bishop
  | rook
  | queen
  | king
deriving DecidableEq

/-- Piece colors, as in `chess.WHITE` / `chess.BLACK`. -/
inductive Color where
  | white
  | black
deriving DecidableEq

def Color.other : Color → Color
  | Color.white => Color.black
  | Color.black => Color.white

/-- A piece, as `chess.Piece(piece_type, color)`. -/
structure Piece where
  pieceType : PieceType
  color : Color
deriving DecidableEq

/- Squares are plain naturals 0..63 in `chess.SQUARES` numbering. -/

def squareFile (s : Nat) : Nat := s % 8

def squareRank (s : Nat) : Nat := s / 8

/-- Embeds `chess.square(file_index, rank_index)`. -/
def mkSquare (file rank : Nat) : Nat := (rank * 8 + file : Nat)

/--
Modelled from the spec: a Board Snapshot together with the auxiliary
position state carried by the rules-engine collaborator (`chess.Board`):
64 cells, side to move, castling rights, en-passant square and the two
move counters used by FEN (spec sections 3 and 6).
-/
structure Board where
  cells : List (Option Piece)
  turn : Color
  castleWK : Bool
  castleWQ : Bool
  castleBK : Bool
  castleBQ : Bool
  epSquare : Option Nat
  halfmove : Nat
  fullmove : Nat
deriving DecidableEq

/-- Embeds `board.piece_at(square)`. -/
def Board.piece_at (b : Board) (s : Nat) : Option Piece :=
  (b.cells.getD s none)

def Board.setCell (b : Board) (s : Nat) (p : Option Piece) : Board :=
  { b with cells := b.cells.set s p }

/-- A move, as `chess.Move(from_square, to_square, promotion=...)`. -/
structure Move where
  fromSq : Nat
  toSq : Nat
  promotion : Option PieceType := none
deriving DecidableEq

/-- Cell-wise equality of two boards over the 64 squares
(`MoveTracker._compare_boards` and the spec's snapshot equality). -/
def boardsMatch (b1 b2 : Board) : Bool :=
  (List.range 64).all (fun sq => b1.piece_at sq = b2.piece_at sq)

end ChessVision

namespace ChessVision

/-! ### Move application (rules-engine collaborator)

Modelled from the spec: "move application (apply a Move to a position,
returning the resulting position)" (section 6), following the observable
behaviour of `chess.Board.push` for standard chess: en-passant captures
remove the bypassed pawn, a king move of more than one file is a castling
move that also relocates the rook, a double pawn push sets the en-passant
square, the halfmove clock resets on pawn moves and captures, castling
rights are cleared when the relevant squares are touched, and the moved
piece is placed with the side to move's color (promotions replace its
type).  Applying a move whose origin square is empty is a caller
precondition violation in the source (section 7, malformed input); it is
modelled as the identity and never reached by any claim. -/

def backRank (c : Color) : Nat :=
  match c with
  | Color.white => 0
  | Color.black => 7

/-- Modelled from the spec (section 6): `chess.Board.push`. -/
def applyMove (b : Board) (m : Move) : Board :=
  match b.piece_at m.fromSq with
  | none => b
  | some p =>
    let fileFrom := squareFile m.fromSq
    let fileTo := squareFile m.toSq
    let rankFrom := squareRank m.fromSq
    let rankTo := squareRank m.toSq
    let ep : Bool :=
      p.pieceType = PieceType.pawn ∧ b.epSquare = some m.toSq ∧
        fileFrom ≠ fileTo ∧ b.piece_at m.toSq = none
    let castling : Bool :=
      p.pieceType = PieceType.king ∧
        (fileFrom + 2 ≤ fileTo ∨ fileTo + 2 ≤ fileFrom)
    let captured : Bool := (b.piece_at m.toSq).isSome
    let halfmove' : Nat :=
      if p.pieceType = PieceType.pawn ∨ captured then 0 else b.halfmove + 1
    let epSquare' : Option Nat :=
      if p.pieceType = PieceType.pawn ∧ rankFrom + 2 = rankTo then
        some (m.fromSq + 8)
      else if p.pieceType = PieceType.pawn ∧ rankTo + 2 = rankFrom then
        some (m.fromSq - 8)
      else none
    let touched : List Nat := [m.fromSq, m.toSq]
    let kingMoved : Bool := p.pieceType = PieceType.king
    let castleWK' := b.castleWK ∧ ¬ touched.contains 7 ∧ ¬ touched.contains 4 ∧
      ¬ (kingMoved ∧ b.turn = Color.white)
    let castleWQ' := b.castleWQ ∧ ¬ touched.contains 0 ∧ ¬ touched.contains 4 ∧
      ¬ (kingMoved ∧ b.turn = Color.white)
    let castleBK' := b.castleBK ∧ ¬ touched.contains 63 ∧ ¬ touched.contains 60 ∧
      ¬ (kingMoved ∧ b.turn = Color.black)
    let castleBQ' := b.castleBQ ∧ ¬ touched.contains 56 ∧ ¬ touched.contains 60 ∧
      ¬ (kingMoved ∧ b.turn = Color.black)
    let cells' : List (Option Piece) :=
      if castling then
        -- king lands on the g- or c-file of the mover's back rank, the
        -- rook on the f- or d-file, and the touched corner is emptied
        let r := backRank b.turn
        let kingSide : Bool := fileFrom < fileTo
        let kTo := if kingSide then mkSquare 6 r else mkSquare 2 r
        let rFrom := if kingSide then mkSquare 7 r else mkSquare 0 r
        let rTo := if kingSide then mkSquare 5 r else mkSquare 3 r
        ((((b.cells.set m.fromSq none).set rFrom none).set kTo
            (some ⟨PieceType.king, b.turn⟩)).set rTo
            (some ⟨PieceType.rook, b.turn⟩))
      else
        let afterFrom := b.cells.set m.fromSq none
        let afterCapture :=
          if ep then
            afterFrom.set (mkSquare fileTo rankFrom) none
          else afterFrom
        let placedType := match m.promotion with
          | some pt => pt
          | none => p.pieceType
        afterCapture.set m.toSq (some ⟨placedType, b.turn⟩)
    { b with
      cells := cells'
      turn := b.turn.other
      castleWK := castleWK'
      castleWQ := castleWQ'
      castleBK := castleBK'
      castleBQ := castleBQ'
      epSquare := epSquare'
      halfmove := halfmove'
      fullmove := if b.turn = Color.black then b.fullmove + 1 else b.fullmove }

/-- Replaying a move sequence through the rules engine (spec section 8). -/
def applyAll (b : Board) (moves : List Move) : Board :=
  moves.foldl applyMove b

/-! ### Legal-move enumeration and check predicates (rules-engine collaborator)

Modelled from the spec: "legal-move enumeration for a given position and
side to move; check-predicate evaluation; checkmate / stalemate /
insufficient-material / fifty-move / repetition predicates" (section 6).
The enumeration order below is this model's order; the spec documents the
engine's order as implementation-defined (section 4.2, tie-break policy). -/

/-- Step from a square by a (file, rank) offset, `none` when off the board. -/
def shiftSq (s : Nat) (df dr : Int) : Option Nat :=
  if 0 ≤ (squareFile s : Int) + df ∧ (squareFile s : Int) + df < 8 ∧
      0 ≤ (squareRank s : Int) + dr ∧ (squareRank s : Int) + dr < 8 then
    some (mkSquare ((squareFile s : Int) + df).toNat
      ((squareRank s : Int) + dr).toNat)
  else none

def knightOffsets : List (Int × Int) :=
  [(1, 2), (2, 1), (2, -1), (1, -2), (-1, -2), (-2, -1), (-2, 1), (-1, 2)]

def kingOffsets : List (Int × Int) :=
  [(1, 0), (1, 1), (0, 1), (-1, 1), (-1, 0), (-1, -1), (0, -1), (1, -1)]

def rookDirs : List (Int × Int) := [(1, 0), (-1, 0), (0, 1), (0, -1)]

def bishopDirs : List (Int × Int) := [(1, 1), (1, -1), (-1, 1), (-1, -1)]

/-- The squares reachable by sliding from `s` in direction `d`, in order,
stopping at (and including) the first occupied square. -/
def rayGo (b : Board) (d : Int × Int) : Nat → Nat → List Nat
  | 0, _ => []
  | fuel + 1, cur =>
    match shiftSq cur d.1 d.2 with
    | none => []
    | some t =>
      if (b.piece_at t).isSome then [t] else t :: rayGo b d fuel t

def ray (b : Board) (s : Nat) (d : Int × Int) : List Nat :=
  rayGo b d 7 s

/-- The first piece met when sliding from `s` in direction `d`. -/
def firstAlong (b : Board) (s : Nat) (d : Int × Int) : Option Piece :=
  match (ray b s d).getLast? with
  | none => none
  | some t => b.piece_at t

/-- Is `sq` attacked by a piece of color `c`? -/
def isAttacked (b : Board) (sq : Nat) (c : Color) : Bool :=
  let knightHit := knightOffsets.any (fun d =>
    match shiftSq sq d.1 d.2 with
    | some t => b.piece_at t = some ⟨PieceType.knight, c⟩
    | none => false)
  let kingHit := kingOffsets.any (fun d =>
    match shiftSq sq d.1 d.2 with
    | some t => b.piece_at t = some ⟨PieceType.king, c⟩
    | none => false)
  -- a pawn of color `c` attacks `sq` from one rank behind (relative to `c`)
  let pawnDir : Int := match c with
    | Color.white => -1
    | Color.black => 1
  let pawnHit := [(1 : Int), -1].any (fun df =>
    match shiftSq sq df pawnDir with
    | some t => b.piece_at t = some ⟨PieceType.pawn, c⟩
    | none => false)
  let rookHit := rookDirs.any (fun d =>
    match firstAlong b sq d with
    | some p => p.color = c ∧
        (p.pieceType = PieceType.rook ∨ p.pieceType = PieceType.queen)
    | none => false)
  let bishopHit := bishopDirs.any (fun d =>
    match firstAlong b sq d with
    | some p => p.color = c ∧
        (p.pieceType = PieceType.bishop ∨ p.pieceType = PieceType.queen)
    | none => false)
  knightHit || kingHit || pawnHit || rookHit || bishopHit

/-- The square of the king of color `c`, if present. -/
def kingSquare (b : Board) (c : Color) : Option Nat :=
  (List.range 64).find? (fun sq => b.piece_at sq = some ⟨PieceType.king, c⟩)

/-- Modelled from the spec (section 6): `board.is_check()` — the side to move's king is attacked. -/
def is_check (b : Board) : Bool :=
  match kingSquare b b.turn with
  | some k => isAttacked b k b.turn.other
  | none => false

/-- Promotion piece types offered for a pawn reaching the last rank, in
this model's enumeration order. -/
def promotionTypes : List PieceType :=
  [PieceType.queen, PieceType.rook, PieceType.bishop, PieceType.knight]

/-- Direction of travel of a pawn of color `c` (one rank up or down). -/
def pawnDir (c : Color) : Int :=
  match c with
  | Color.white => 1
  | Color.black => -1

def pawnStartRank (c : Color) : Nat :=
  match c with
  | Color.white => 1
  | Color.black => 6

def pawnLastRank (c : Color) : Nat :=
  match c with
  | Color.white => 7
  | Color.black => 0

/-- A pawn arrival square, expanded into the four promotion moves when it
is on the last rank. -/
def expandPromo (f t : Nat) (lastRank : Nat) : List Move :=
  if squareRank t = lastRank then
    promotionTypes.map (fun pt => ⟨f, t, some pt⟩)
  else [⟨f, t, none⟩]

/-- Pawn pushes from `f` (single, and double from the start rank). -/
def pawnPushes (b : Board) (f : Nat) (c : Color) : List Move :=
  match shiftSq f 0 (pawnDir c) with
  | none => []
  | some t1 =>
    if (b.piece_at t1).isNone then
      expandPromo f t1 (pawnLastRank c) ++
        (if squareRank f = pawnStartRank c then
          match shiftSq t1 0 (pawnDir c) with
          | some t2 => if (b.piece_at t2).isNone then [⟨f, t2, none⟩] else []
          | none => []
        else [])
    else []

/-- Pawn captures from `f`, including en passant onto the en-passant
square. -/
def pawnCaptures (b : Board) (f : Nat) (c : Color) : List Move :=
  [(1 : Int), -1].flatMap (fun df =>
    match shiftSq f df (pawnDir c) with
    | none => []
    | some t =>
      match b.piece_at t with
      | some p => if p.color = c.other then expandPromo f t (pawnLastRank c) else []
      | none => if b.epSquare = some t then [⟨f, t, none⟩] else [])

/-- Pawn moves from `f` for a pawn of color `c` (pushes, captures,
en passant, with promotions expanded on the last rank). -/
def pawnMovesFrom (b : Board) (f : Nat) (c : Color) : List Move :=
  pawnPushes b f c ++ pawnCaptures b f c

/-- May a piece of color `c` land on `t`?  (empty square or opponent
piece). -/
def targetOk (b : Board) (c : Color) (t : Nat) : Bool :=
  match b.piece_at t with
  | some q => q.color = c.other
  | none => true

/-- Non-castling candidate moves for the piece `p` on `f`.  Moves onto a
square holding a piece of one's own color are excluded, and no generated
move has `toSq = fromSq`. -/
def pieceMovesFrom (b : Board) (f : Nat) (p : Piece) : List Move :=
  let fromOffsets : List (Int × Int) → List Move := fun offs =>
    offs.filterMap (fun d =>
      match shiftSq f d.1 d.2 with
      | some t => if targetOk b p.color t then some ⟨f, t, none⟩ else none
      | none => none)
  let slide : List (Int × Int) → List Move := fun dirs =>
    dirs.flatMap (fun d =>
      (ray b f d).filterMap (fun t =>
        if targetOk b p.color t then some ⟨f, t, none⟩ else none))
  match p.pieceType with
  | PieceType.pawn => pawnMovesFrom b f p.color
  | PieceType.knight => fromOffsets knightOffsets
  | PieceType.bishop => slide bishopDirs
  | PieceType.rook => slide rookDirs
  | PieceType.queen => slide (rookDirs ++ bishopDirs)
  | PieceType.king => fromOffsets kingOffsets

/-- Castling candidate moves for the side to move: rights present, king
and rook on their home squares, path empty, king's start and crossing
square not attacked (the destination square is screened by the general
legality filter). -/
def castleMoves (b : Board) : List Move :=
  let r := backRank b.turn
  let c := b.turn
  let opp := c.other
  let e := mkSquare 4 r
  let kingHome : Bool := b.piece_at e = some ⟨PieceType.king, c⟩
  let kingSideRight : Bool := match c with
    | Color.white => b.castleWK
    | Color.black => b.castleBK
  let queenSideRight : Bool := match c with
    | Color.white => b.castleWQ
    | Color.black => b.castleBQ
  let kingSide : List Move :=
    if kingSideRight ∧ kingHome ∧
        b.piece_at (mkSquare 7 r) = some ⟨PieceType.rook, c⟩ ∧
        (b.piece_at (mkSquare 5 r)).isNone ∧
        (b.piece_at (mkSquare 6 r)).isNone ∧
        ¬ isAttacked b e opp ∧ ¬ isAttacked b (mkSquare 5 r) opp then
      [⟨e, mkSquare 6 r, none⟩]
    else []
  let queenSide : List Move :=
    if queenSideRight ∧ kingHome ∧
        b.piece_at (mkSquare 0 r) = some ⟨PieceType.rook, c⟩ ∧
        (b.piece_at (mkSquare 1 r)).isNone ∧
        (b.piece_at (mkSquare 2 r)).isNone ∧
        (b.piece_at (mkSquare 3 r)).isNone ∧
        ¬ isAttacked b e opp ∧ ¬ isAttacked b (mkSquare 3 r) opp then
      [⟨e, mkSquare 2 r, none⟩]
    else []
  kingSide ++ queenSide

/-- All pseudo-legal moves of the side to move, in this model's
enumeration order: per origin square ascending, then castling. -/
def pseudoMoves (b : Board) : List Move :=
  (List.range 64).flatMap (fun f =>
    match b.piece_at f with
    | some p => if p.color = b.turn then pieceMovesFrom b f p else []
    | none => []) ++ castleMoves b

/-- After playing `m`, is the mover's own king safe?  (A position with no
king of the mover's color imposes no constraint, as in the engine.) -/
def kingSafeAfter (b : Board) (m : Move) : Bool :=
  let b' := applyMove b m
  match kingSquare b' b.turn with
  | some k => ¬ isAttacked b' k b.turn.other
  | none => true

/-- Modelled from the spec (section 6): `board.legal_moves`. -/
def legalMoves (b : Board) : List Move :=
  (pseudoMoves b).filter (kingSafeAfter b)

/-- Modelled from the spec (section 6): `board.is_checkmate()`. -/
def is_checkmate (b : Board) : Bool :=
  is_check b ∧ legalMoves b = []

/-- Modelled from the spec (section 6): `board.is_stalemate()`. -/
def is_stalemate (b : Board) : Bool :=
  ¬ is_check b ∧ legalMoves b = []

/-- Modelled from the spec: `board.is_insufficient_material()` — neither
side retains a pawn, rook or queen, and each side has at most one minor
piece. -/
def is_insufficient_material (b : Board) : Bool :=
  let count : PieceType → Color → Nat := fun pt c =>
    ((List.range 64).filter (fun sq => b.piece_at sq = some ⟨pt, c⟩)).length
  [Color.white, Color.black].all (fun c =>
    count PieceType.pawn c = 0 ∧ count PieceType.rook c = 0 ∧
    count PieceType.queen c = 0 ∧
    count PieceType.knight c + count PieceType.bishop c ≤ 1)

/-- Modelled from the spec: `board.is_fifty_moves()` — halfmove clock at 100 or more with a legal
move available. -/
def is_fifty_moves (b : Board) : Bool :=
  100 ≤ b.halfmove ∧ legalMoves b ≠ []

/-- The transposition key used by the repetition predicate: piece
placement, side to move, castling rights and en-passant square (the move
counters are erased). -/
def transpositionKey (b : Board) : Board :=
  { b with halfmove := 0, fullmove := 0 }

/-- The positions visited while replaying `moves` from `b`, including the
starting and final positions. -/
def replayPositions (b : Board) (moves : List Move) : List Board :=
  match moves with
  | [] => [b]
  | m :: rest => b :: replayPositions (applyMove b m) rest

/-- Modelled from the spec: `board.is_repetition()` for a board built by pushing `moves` from
`b0`: the final position's key occurred at least three times. -/
def isRepetitionOfReplay (b0 : Board) (moves : List Move) : Bool :=
  let positions := replayPositions b0 moves
  let finalKey := transpositionKey (applyAll b0 moves)
  3 ≤ (positions.filter (fun p => decide (transpositionKey p = finalKey))).length

/-! ### FEN and names (rules-engine collaborator)

Modelled from the spec: "FEN string: the piece-placement + side-to-move +
castling/en-passant + move-counters position encoding" (section 6). -/

def pieceLetter (p : Piece) : String :=
  match p.color, p.pieceType with
  | Color.white, PieceType.pawn => "P"
  | Color.white, PieceType.knight => "N"
  | Color.white, PieceType.bishop => "B"
  | Color.white, PieceType.rook => "R"
  | Color.white, PieceType.queen => "Q"
  | Color.white, PieceType.king => "K"
  | Color.black, PieceType.pawn => "p"
  | Color.black, PieceType.knight => "n"
  | Color.black, PieceType.bishop => "b"
  | Color.black, PieceType.rook => "r"
  | Color.black, PieceType.queen => "q"
  | Color.black, PieceType.king => "k"

/-- Embeds `chess.square_name(square)`; e.g. square 0 is named by file letter a
and rank digit 1. -/
def squareName (s : Nat) : String :=
  (Char.ofNat (97 + squareFile s)).toString ++ Nat.repr (squareRank s + 1)

/-- One FEN rank: pieces as letters, runs of empty cells as digits. -/
def fenRank (b : Board) (r : Nat) : String :=
  let step : (String × Nat) → Nat → (String × Nat) :=
    fun acc f =>
      match b.piece_at (mkSquare f r) with
      | some p =>
        ((if acc.2 = 0 then acc.1 else acc.1 ++ Nat.repr acc.2) ++
          pieceLetter p, 0)
      | none => (acc.1, acc.2 + 1)
  let res := (List.range 8).foldl step ("", 0)
  if res.2 = 0 then res.1 else res.1 ++ Nat.repr res.2

/-- Modelled from the spec (section 6): `board.fen()`. -/
def fen (b : Board) : String :=
  let placement :=
    String.intercalate "/" ((List.range 8).reverse.map (fenRank b))
  let turnStr := match b.turn with
    | Color.white => "w"
    | Color.black => "b"
  let castleStr :=
    let s := (if b.castleWK then "K" else "") ++
      (if b.castleWQ then "Q" else "") ++
      (if b.castleBK then "k" else "") ++
      (if b.castleBQ then "q" else "")
    if s = "" then "-" else s
  let epStr := match b.epSquare with
    | some sq => squareName sq
    | none => "-"
  placement ++ " " ++ turnStr ++ " " ++ castleStr ++ " " ++ epStr ++ " " ++
    Nat.repr b.halfmove ++ " " ++ Nat.repr b.fullmove

/-- Modelled from the spec: SAN rendering is supplied by the rules-engine
collaborator ("standard algebraic notation rendering for a move given the
position it is played from", section 6).  No claim depends on the SAN
string's exact shape, so the model renders a move as piece letter plus
origin and destination names and the promotion piece. -/
def san (b : Board) (m : Move) : String :=
  let head := match b.piece_at m.fromSq with
    | some p => pieceLetter p
    | none => ""
  let promo := match m.promotion with
    | some pt => "=" ++ pieceLetter ⟨pt, Color.white⟩
    | none => ""
  head ++ squareName m.fromSq ++ squareName m.toSq ++ promo

/-- One rank of the standard starting position's piece placement. -/
def homeRank (c : Color) : List (Option Piece) :=
  [some ⟨PieceType.rook, c⟩, some ⟨PieceType.knight, c⟩,
   some ⟨PieceType.bishop, c⟩, some ⟨PieceType.queen, c⟩,
   some ⟨PieceType.king, c⟩, some ⟨PieceType.bishop, c⟩,
   some ⟨PieceType.knight, c⟩, some ⟨PieceType.rook, c⟩]

def pawnRank (c : Color) : List (Option Piece) :=
  List.replicate 8 (some ⟨PieceType.pawn, c⟩)

def emptyRank : List (Option Piece) := List.replicate 8 none

/-- A board with no pieces, no castling rights and white to move, used to
build concrete test positions. -/
def emptyBoard : Board :=
  { cells := List.replicate 64 none
    turn := Color.white
    castleWK := false
    castleWQ := false
    castleBK := false
    castleBQ := false
    epSquare := none
    halfmove := 0
    fullmove := 1 }

/-- Embeds `chess.Board()`: the standard starting position. -/
def startBoard : Board :=
  { cells := homeRank Color.white ++ pawnRank Color.white ++
      emptyRank ++ emptyRank ++ emptyRank ++ emptyRank ++
      pawnRank Color.black ++ homeRank Color.black
    turn := Color.white
    castleWK := true
    castleWQ := true
    castleBK := true
    castleBQ := true
    epSquare := none
    halfmove := 0
    fullmove := 1 }

/-! ### `moves/tracker.py` — MoveTracker -/

/-- The square-level diff computed at the top of
`MoveTracker._detect_move`: for each square (ascending), the previous and
current occupants where they differ. -/
def boardChanges (prev curr : Board) :
    List (Nat × Option Piece × Option Piece) :=
  (List.range 64).filterMap (fun sq =>
    if prev.piece_at sq ≠ curr.piece_at sq then
      some (sq, prev.piece_at sq, curr.piece_at sq)
    else none)

/-- Python truthiness of an optional square variable, as used by the
4-change and 3-change branches of `_detect_move` (`if king_from and
king_to and rook_from and rook_to`): both `None` and square `0` (a1) are
falsy. -/
def pyTruthySq : Option Nat → Bool
  | none => false
  | some n => decide (n ≠ 0)

/-- The `len(changes) == 2` block of `_detect_move`: a simple move, with
promotion recognised when the moving pawn reaches the far rank. -/
def detect2Block (changes : List (Nat × Option Piece × Option Piece))
    (curr : Board) : Option Move :=
  if changes.length = 2 then
    -- the loop assigns from_square / moving_piece and to_square,
    -- later iterations overwriting earlier ones
    let scan := changes.foldl
      (fun (acc : Option Nat × Option Nat × Option Piece) ch =>
        let (sq, prevP, currP) := ch
        if prevP.isSome ∧ currP.isNone then (some sq, acc.2.1, prevP)
        else if prevP.isNone ∧ currP.isSome then (acc.1, some sq, acc.2.2)
        else acc)
      (none, none, none)
    match scan with
    | (some fromSq, some toSq, some movingPiece) =>
      if movingPiece.pieceType = PieceType.pawn ∧
          ((movingPiece.color = Color.white ∧ squareRank toSq = 7) ∨
           (movingPiece.color = Color.black ∧ squareRank toSq = 0)) then
        match curr.piece_at toSq with
        | some promotedPiece =>
          some ⟨fromSq, toSq, some promotedPiece.pieceType⟩
        | none => some ⟨fromSq, toSq, none⟩
      else
        some ⟨fromSq, toSq, none⟩
    | _ => none
  else none

/-- The `len(changes) == 4` block of `_detect_move` (castling).  The
final guard is Python truthiness, so a key square equal to a1 (square 0)
makes the branch fall through. -/
def detect4Block (changes : List (Nat × Option Piece × Option Piece)) :
    Option Move :=
  if changes.length = 4 then
    let scan := changes.foldl
      (fun (acc : Option Nat × Option Nat × Option Nat × Option Nat)
          ch =>
        let (sq, prevP, currP) := ch
        if (prevP.map Piece.pieceType = some PieceType.king) ∧ currP.isNone then
          (some sq, acc.2.1, acc.2.2.1, acc.2.2.2)
        else if prevP.isNone ∧ (currP.map Piece.pieceType = some PieceType.king) then
          (acc.1, some sq, acc.2.2.1, acc.2.2.2)
        else if (prevP.map Piece.pieceType = some PieceType.rook) ∧ currP.isNone then
          (acc.1, acc.2.1, some sq, acc.2.2.2)
        else if prevP.isNone ∧ (currP.map Piece.pieceType = some PieceType.rook) then
          (acc.1, acc.2.1, acc.2.2.1, some sq)
        else acc)
      (none, none, none, none)
    let (kingFrom, kingTo, rookFrom, rookTo) := scan
    if pyTruthySq kingFrom ∧ pyTruthySq kingTo ∧
        pyTruthySq rookFrom ∧ pyTruthySq rookTo then
      match kingFrom, kingTo with
      | some kf, some kt =>
        if (squareFile kf : Int) - (squareFile kt : Int) = 2 ∨
            (squareFile kt : Int) - (squareFile kf : Int) = 2 then
          some ⟨kf, kt, none⟩
        else none
      | _, _ => none
    else none
  else none

/-- The `len(changes) == 3` block of `_detect_move` (en passant).  The
source's third `elif` condition is identical to the first one (a
vanishing pawn always sets `pawn_from`), so `captured_square` is never
assigned and this block never produces a move; the translation keeps the
duplicated condition. -/
def detect3Block (changes : List (Nat × Option Piece × Option Piece)) :
    Option Move :=
  if changes.length = 3 then
    let scan := changes.foldl
      (fun (acc : Option Nat × Option Nat × Option Nat) ch =>
        let (sq, prevP, currP) := ch
        if (prevP.map Piece.pieceType = some PieceType.pawn) ∧ currP.isNone then
          (some sq, acc.2.1, acc.2.2)
        else if prevP.isNone ∧ (currP.map Piece.pieceType = some PieceType.pawn) then
          (acc.1, some sq, acc.2.2)
        else if (prevP.map Piece.pieceType = some PieceType.pawn) ∧ currP.isNone then
          (acc.1, acc.2.1, some sq)
        else acc)
      (none, none, none)
    let (pawnFrom, pawnTo, capturedSquare) := scan
    if pyTruthySq pawnFrom ∧ pyTruthySq pawnTo ∧ pyTruthySq capturedSquare then
      match pawnFrom, pawnTo with
      | some pf, some pt =>
        if (squareFile pf : Int) - (squareFile pt : Int) = 1 ∨
            (squareFile pt : Int) - (squareFile pf : Int) = 1 then
          some ⟨pf, pt, none⟩
        else none
      | _, _ => none
    else none
  else none

/-- The scan of `MoveTracker._find_legal_move`: try each legal move of
the previous position in enumeration order and return the first whose
resulting position matches the current one cell-wise. -/
def findLegalGo (prev curr : Board) : List Move → Option Move
  | [] => none
  | m :: rest =>
    if boardsMatch (applyMove prev m) curr then some m
    else findLegalGo prev curr rest

/-- Embeds `MoveTracker._find_legal_move`. -/
def find_legal_move (prev curr : Board) : Option Move :=
  findLegalGo prev curr (legalMoves prev)

/-- Embeds `MoveTracker._detect_move`: diff the two boards, try the 2-, 4- and
3-change fast paths in that order, then fall back to the legal-move
search. -/
def detect_move (prev curr : Board) : Option Move :=
  let changes := boardChanges prev curr
  if changes.length = 0 then none
  else
    match detect2Block changes curr with
    | some m => some m
    | none =>
      match detect4Block changes with
      | some m => some m
      | none =>
        match detect3Block changes with
        | some m => some m
        | none => find_legal_move prev curr

/-- The mutable state of a `MoveTracker`. -/
structure TrackerState where
  previous_board : Option Board
  current_board : Option Board
  moves : List Move
deriving DecidableEq

/-- Embeds `MoveTracker.__init__`. -/
def trackerInit : TrackerState :=
  { previous_board := none, current_board := none, moves := [] }

/-- Embeds `MoveTracker.set_initial_position`. -/
def set_initial_position (board : Board) : TrackerState :=
  { previous_board := some board, current_board := some board, moves := [] }

/-- Embeds `MoveTracker.track_move`: returns the detected move (if any) and the
updated tracker state.  Note that both board slots are updated before
detection, whatever the detection outcome. -/
def track_move (st : TrackerState) (new_board : Board) :
    Option Move × TrackerState :=
  match st.current_board with
  | none => (none, { st with current_board := some new_board })
  | some cur =>
    let st1 := { st with
      previous_board := some cur
      current_board := some new_board }
    match detect_move cur new_board with
    | some m => (some m, { st1 with moves := st1.moves ++ [m] })
    | none => (none, st1)

/-- Running a tracker: `set_initial_position` followed by one
`track_move` call per snapshot. -/
def runTracker (init : Board) (snaps : List Board) : TrackerState :=
  snaps.foldl (fun st nb => (track_move st nb).2) (set_initial_position init)

/-! ### `position/validator.py` — PositionValidator

Each `_validate_*` helper appends its issues to a shared list and returns
a boolean; the embedding returns the appended issues alongside the
boolean. -/

def countPieces (b : Board) (pt : PieceType) (c : Color) : Nat :=
  ((List.range 64).filter (fun sq => b.piece_at sq = some ⟨pt, c⟩)).length

def colorName (c : Color) : String :=
  match c with
  | Color.white => "white"
  | Color.black => "black"

/-- Embeds `PositionValidator._validate_kings`. -/
def validate_kings (b : Board) : Bool × List String :=
  let whiteKingCount := countPieces b PieceType.king Color.white
  let blackKingCount := countPieces b PieceType.king Color.black
  if whiteKingCount ≠ 1 then
    (false, ["Invalid white king count: " ++ Nat.repr whiteKingCount])
  else if blackKingCount ≠ 1 then
    (false, ["Invalid black king count: " ++ Nat.repr blackKingCount])
  else (true, [])

/-- The issues contributed by one color in
`PositionValidator._validate_piece_counts`, in append order. -/
def pieceCountIssues (b : Board) (c : Color) : List String :=
  let n := colorName c
  (if 8 < countPieces b PieceType.pawn c then
    ["Too many " ++ n ++ " pawns: " ++ Nat.repr (countPieces b PieceType.pawn c)]
  else []) ++
  (if 10 < countPieces b PieceType.knight c then
    ["Too many " ++ n ++ " knights: " ++ Nat.repr (countPieces b PieceType.knight c)]
  else []) ++
  (if 10 < countPieces b PieceType.bishop c then
    ["Too many " ++ n ++ " bishops: " ++ Nat.repr (countPieces b PieceType.bishop c)]
  else []) ++
  (if 10 < countPieces b PieceType.rook c then
    ["Too many " ++ n ++ " rooks: " ++ Nat.repr (countPieces b PieceType.rook c)]
  else []) ++
  (if 9 < countPieces b PieceType.queen c then
    ["Too many " ++ n ++ " queens: " ++ Nat.repr (countPieces b PieceType.queen c)]
  else []) ++
  (let total := countPieces b PieceType.pawn c + countPieces b PieceType.knight c +
      countPieces b PieceType.bishop c + countPieces b PieceType.rook c +
      countPieces b PieceType.queen c + countPieces b PieceType.king c
   if 16 < total then
    ["Too many " ++ n ++ " pieces: " ++ Nat.repr total]
   else [])

/-- Embeds `PositionValidator._validate_piece_counts`. -/
def validate_piece_counts (b : Board) : Bool × List String :=
  let issues := pieceCountIssues b Color.white ++ pieceCountIssues b Color.black
  (issues.isEmpty, issues)

/-- One scan loop of `PositionValidator._validate_pawn_placement`: files
a..h of rank `r`, reporting pawns found there. -/
def pawnRankIssues (b : Board) (r : Nat) (tag : String) : List String :=
  (List.range 8).filterMap (fun fileIdx =>
    match b.piece_at (mkSquare fileIdx r) with
    | some p =>
      if p.pieceType = PieceType.pawn then
        some ("Pawn on " ++ tag ++ " rank at " ++ squareName (mkSquare fileIdx r))
      else none
    | none => none)

/-- Embeds `PositionValidator._validate_pawn_placement`: scans files a..h of the
first rank, then of the last rank. -/
def validate_pawn_placement (b : Board) : Bool × List String :=
  let issues := pawnRankIssues b 0 "first" ++ pawnRankIssues b 7 "last"
  (issues.isEmpty, issues)

/-- Embeds `PositionValidator._validate_check_state`: the side-to-move flag is
toggled, the engine's check predicate queried, and the flag restored; the
net effect is a pure query on the flipped position. -/
def validate_check_state (b : Board) : Bool × List String :=
  if is_check { b with turn := b.turn.other } then
    (false, ["The side not to move is in check"])
  else (true, [])

/-- Embeds `PositionValidator.validate_position`: the four checks in order, each
aborting early once it reports a fatal issue. -/
def validate_position (b : Board) : Bool × List String :=
  let (ok1, i1) := validate_kings b
  if ¬ ok1 then (false, i1)
  else
    let (ok2, i2) := validate_piece_counts b
    if ¬ ok2 then (false, i1 ++ i2)
    else
      let (ok3, i3) := validate_pawn_placement b
      if ¬ ok3 then (false, i1 ++ i2 ++ i3)
      else
        let (ok4, i4) := validate_check_state b
        if ¬ ok4 then (false, i1 ++ i2 ++ i3 ++ i4)
        else
          let issues := i1 ++ i2 ++ i3 ++ i4
          (issues.isEmpty, issues)

/-! ### `notation/generator.py` — NotationGenerator -/

/-- The mutable state of a `NotationGenerator`: the move list and the PGN
header dictionary (insertion-ordered, as a Python dict). -/
structure GenState where
  moves : List Move
  headers : List (String × String)
deriving DecidableEq

/-- Python dict assignment `d[k] = v`: replace the value at an existing
key in place, or append the binding. -/
def dictSet : List (String × String) → String → String → List (String × String)
  | [], k, v => [(k, v)]
  | (k0, v0) :: rest, k, v =>
    if k0 = k then (k, v) :: rest else (k0, v0) :: dictSet rest k v

/-- Embeds `NotationGenerator.__init__`; the Date header is the ambient current
date, passed in explicitly. -/
def generatorInit (dateStr : String) : GenState :=
  { moves := []
    headers := [("Event", "Chess Video Analysis"), ("Site", "Unknown"),
      ("Date", dateStr), ("Round", "?"), ("White", "?"), ("Black", "?"),
      ("Result", "*")] }

/-- Embeds `NotationGenerator.add_move`. -/
def add_move (s : GenState) (m : Move) : GenState :=
  { s with moves := s.moves ++ [m] }

/-- Embeds `NotationGenerator.set_moves`. -/
def set_moves (s : GenState) (moves : List Move) : GenState :=
  { s with moves := moves }

/-- Embeds `NotationGenerator.set_header`. -/
def set_header (s : GenState) (key value : String) : GenState :=
  { s with headers := dictSet s.headers key value }

/-- Embeds `NotationGenerator.set_result`: the Result header is set only when
the argument is one of the four PGN result tokens; otherwise the call
does nothing (and raises no error). -/
def set_result (s : GenState) (result : String) : GenState :=
  if result = "1-0" ∨ result = "0-1" ∨ result = "1/2-1/2" ∨ result = "*" then
    { s with headers := dictSet s.headers "Result" result }
  else s

/-- The SAN strings of a move list replayed from `b`
(`NotationGenerator.get_move_list`'s loop). -/
def moveListGo (b : Board) : List Move → List String
  | [] => []
  | m :: rest => san b m :: moveListGo (applyMove b m) rest

/-- Embeds `NotationGenerator.get_move_list`: reads the state, mutates nothing. -/
def get_move_list (s : GenState) : List String × GenState :=
  if s.moves = [] then ([], s)
  else (moveListGo startBoard s.moves, s)

/-- The pairing loop of `NotationGenerator.get_move_pairs`. -/
def pairsGo : List String → List (String × Option String)
  | [] => []
  | [w] => [(w, none)]
  | w :: bk :: rest => (w, some bk) :: pairsGo rest

/-- Embeds `NotationGenerator.get_move_pairs`. -/
def get_move_pairs (s : GenState) : List (String × Option String) × GenState :=
  (pairsGo (get_move_list s).1, (get_move_list s).2)

/-- Python truthiness of the optional black move in
`get_formatted_move_list` (`if black_move:`): `None` and the empty string
are falsy. -/
def strTruthy : Option String → Bool
  | none => false
  | some s => decide (s ≠ "")

def formattedGo (i : Nat) : List (String × Option String) → List String
  | [] => []
  | (w, bk) :: rest =>
    (if strTruthy bk then
      Nat.repr (i + 1) ++ ". " ++ w ++ " " ++ bk.getD ""
    else
      Nat.repr (i + 1) ++ ". " ++ w) :: formattedGo (i + 1) rest

/-- Embeds `NotationGenerator.get_formatted_move_list`. -/
def get_formatted_move_list (s : GenState) : String × GenState :=
  (String.intercalate " " (formattedGo 0 (get_move_pairs s).1),
    (get_move_pairs s).2)

/-- Embeds `NotationGenerator.get_fen`: replays moves `[0, index)` of the move
list from the standard starting position (`chess.Board()`); a missing
index means the full move list, and the index is clamped from above by
`min` (a negative index survives `min` and replays nothing). -/
def get_fen (s : GenState) (move_index : Option Int) : String × GenState :=
  let board := startBoard
  if s.moves = [] then (fen board, s)
  else
    let idx0 : Int := match move_index with
      | none => (s.moves.length : Int)
      | some i => i
    let idx : Int := min idx0 (s.moves.length : Int)
    (fen (applyAll board (s.moves.take idx.toNat)), s)

/-- The PGN text assembled by `str(game)` in `get_pgn`; modelled from the
spec ("header block followed by the numbered move list and trailing
result token", section 6).  Its exact shape is not load-bearing for any
claim. -/
def pgnText (headers : List (String × String)) (moves : List Move) : String :=
  let headerBlock := String.intercalate ""
    (headers.map (fun kv => "[" ++ kv.1 ++ " \"" ++ kv.2 ++ "\"]\n"))
  let numbered := String.intercalate " "
    (formattedGo 0 (pairsGo (moveListGo startBoard moves)))
  headerBlock ++ numbered

/-- Embeds `NotationGenerator.get_pgn`: replays the move list from the standard
start and, when the final position is checkmate (or a draw condition
holds), overwrites the Result header in the generator's state before
rendering. -/
def get_pgn (s : GenState) (include_headers : Bool) : String × GenState :=
  if s.moves = [] then ("", s)
  else
    let final := applyAll startBoard s.moves
    let headers1 :=
      if is_checkmate final then
        dictSet s.headers "Result"
          (if final.turn = Color.white then "0-1" else "1-0")
      else if is_stalemate final ∨ is_insufficient_material final ∨
          is_fifty_moves final ∨ isRepetitionOfReplay startBoard s.moves then
        dictSet s.headers "Result" "1/2-1/2"
      else s.headers
    let text :=
      if include_headers then pgnText headers1 s.moves
      else pgnText [] s.moves
    (text, { s with headers := headers1 })


/-! ### Claim-side definitions and concrete test positions -/

/-- Modelled from the spec's words (section 4.2 step 5): "enumerate every
legal move available to the side to move in `previous`, apply each
candidate to a working copy of `previous`, and compare the resulting
position cell-by-cell against `current`.  The first candidate producing
an exact match is returned.  If none match, return `Unresolved`." -/
def fallbackSpec (prev curr : Board) : Option Move :=
  (legalMoves prev).find? (fun m => boardsMatch (applyMove prev m) curr)

/-- One snapshot transition is explained: the new snapshot either equals
the previous one, or is exactly the result of applying the detected move
to the previous one. -/
def stepOK (p c : Board) : Bool :=
  decide (c = p) ||
    (match detect_move p c with
     | some m => decide (applyMove p m = c)
     | none => false)

/-- Every consecutive snapshot transition in the stream is explained. -/
def chainOK : Board → List Board → Bool
  | _, [] => true
  | p, c :: rest => stepOK p c && chainOK c rest

/-- The claim's hypothesis for the pawn-placement half of validator
fatality: some pawn (of either color) sits on rank 1 or rank 8. -/
def pawnOnEdgeRank (b : Board) : Bool :=
  (List.range 64).any (fun sq =>
    decide (squareRank sq = 0 ∨ squareRank sq = 7) &&
      (match b.piece_at sq with
       | some p => decide (p.pieceType = PieceType.pawn)
       | none => false))

/-- Python dict lookup `d[k]` on the association list (first binding
wins; the embedding never creates duplicate keys). -/
def lookupHeader : List (String × String) → String → Option String
  | [], _ => none
  | (k0, v) :: rest, k => if k0 = k then some v else lookupHeader rest k

/-- The Result-header overwrite that `get_pgn` performs, as a function of
the recorded move list: the result token when the replayed final position
is checkmate or satisfies one of the draw conditions, `none` otherwise
(including the empty-move early return). -/
def pgnResultUpdate (moves : List Move) : Option String :=
  if moves = [] then none
  else
    if is_checkmate (applyAll startBoard moves) then
      some (if (applyAll startBoard moves).turn = Color.white then "0-1"
        else "1-0")
    else if is_stalemate (applyAll startBoard moves) ∨
        is_insufficient_material (applyAll startBoard moves) ∨
        is_fifty_moves (applyAll startBoard moves) ∨
        isRepetitionOfReplay startBoard moves then
      some "1/2-1/2"
    else none

/-- Modelled from the claim's words for `render_fen`: the FEN of the
position reached by replaying moves `[0, min(index, move count))` from
the given initial snapshot (`None` meaning the full move count). -/
def renderFenClaim (initial : Board) (s : GenState) (move_index : Option Int) :
    String :=
  let count : Int := s.moves.length
  let idx : Int := match move_index with
    | none => count
    | some i => i
  fen (applyAll initial (s.moves.take (min idx count).toNat))

/-- The move 1.e4 (e2 to e4). -/
def e4Move : Move := ⟨12, 28, none⟩

/-- The position after 1.e4. -/
def e4Board : Board := applyMove startBoard e4Move

/-- A corrupted observation: e2 emptied but a BLACK pawn appearing on e4.
The 2-change fast path still reads it as the move e2-e4. -/
def garbageE4Board : Board :=
  { startBoard with
    cells := (startBoard.cells.set 12 none).set 28
      (some ⟨PieceType.pawn, Color.black⟩) }

/-- A snapshot differing from the start by 5 scattered squares (the five
pawns a2..e2 removed) with no legal-move explanation. -/
def fiveChangeBoard : Board :=
  { startBoard with
    cells := ((((startBoard.cells.set 8 none).set 9 none).set 10 none).set
      11 none).set 12 none }

/-- White pawn a5, black pawn b5, kings h1 / h8, white to move, no
en-passant rights. -/
def epShapePrev : Board :=
  { emptyBoard with
    cells := (((emptyBoard.cells.set 32 (some ⟨PieceType.pawn, Color.white⟩)).set
      33 (some ⟨PieceType.pawn, Color.black⟩)).set
      7 (some ⟨PieceType.king, Color.white⟩)).set
      63 (some ⟨PieceType.king, Color.black⟩) }

/-- The board `epShapePrev` after an (unexplainable) en-passant-shaped 3-square
change: the a5 pawn vanished, a white pawn appeared on b6, and the b5
pawn vanished. -/
def epShapeCurr : Board :=
  { epShapePrev with
    cells := ((epShapePrev.cells.set 32 none).set 33 none).set 41
      (some ⟨PieceType.pawn, Color.white⟩) }

/-- Like `epShapePrev` but with en-passant rights on b6, so the capture
a5xb6 is a genuine legal move. -/
def epRealPrev : Board := { epShapePrev with epSquare := some 41 }

/-- The position after the real en-passant capture a5xb6. -/
def epRealCurr : Board := applyMove epRealPrev ⟨32, 41, none⟩

/-- White rook a1, white king e1, black king h8, white to move, no
castling rights. -/
def castleShapePrev : Board :=
  { emptyBoard with
    cells := ((emptyBoard.cells.set 0 (some ⟨PieceType.rook, Color.white⟩)).set
      4 (some ⟨PieceType.king, Color.white⟩)).set
      63 (some ⟨PieceType.king, Color.black⟩) }

/-- The board `castleShapePrev` after a queenside-castling-shaped 4-square change
(king e1 to c1, rook a1 to d1) that no legal move explains. -/
def castleShapeCurr : Board :=
  { castleShapePrev with
    cells := (((castleShapePrev.cells.set 0 none).set 4 none).set 2
      (some ⟨PieceType.king, Color.white⟩)).set 3
      (some ⟨PieceType.rook, Color.white⟩) }

/-- The fool's mate move list 1.f3 e5 2.g4 Qh4, mating white. -/
def foolsMateMoves : List Move :=
  [⟨13, 21, none⟩, ⟨52, 36, none⟩, ⟨14, 30, none⟩, ⟨59, 31, none⟩]

/-- A generator holding the fool's mate game (Result header still "*"). -/
def foolsGen : GenState := set_moves (generatorInit "2024.01.01") foolsMateMoves

/-- A generator holding just 1.e4. -/
def e4Gen : GenState := set_moves (generatorInit "2024.01.01") [e4Move]

/-- A board with two white kings (and a lone black king). -/
def twoKingsBoard : Board :=
  { emptyBoard with
    cells := ((emptyBoard.cells.set 0 (some ⟨PieceType.king, Color.white⟩)).set
      1 (some ⟨PieceType.king, Color.white⟩)).set
      63 (some ⟨PieceType.king, Color.black⟩) }

/-- A board with a white pawn on a1 (kings e1 / e5-ish placed legally
enough to pass the earlier validator stages). -/
def pawnA1Board : Board :=
  { emptyBoard with
    cells := ((emptyBoard.cells.set 0 (some ⟨PieceType.pawn, Color.white⟩)).set
      4 (some ⟨PieceType.king, Color.white⟩)).set
      60 (some ⟨PieceType.king, Color.black⟩) }

/-! ### Basic lemmas about cells and diffs -/

lemma getD_set_ne {α : Type} (l : List α) (i j : Nat) (x d : α) (h : i ≠ j) :
    (l.set i x).getD j d = l.getD j d := by
  simp [List.getD_eq_getElem?_getD, List.getElem?_set_ne h]

lemma getD_set_self {α : Type} (l : List α) (i : Nat) (x d : α)
    (h : i < l.length) :
    (l.set i x).getD i d = x := by
  simp [List.getD_eq_getElem?_getD, List.getElem?_set_self h]

lemma piece_at_some_lt (b : Board) (s : Nat) (p : Piece)
    (h : b.piece_at s = some p) : s < b.cells.length := by
  by_contra hge
  have hnone : b.cells[s]? = none :=
    List.getElem?_eq_none_iff.mpr (Nat.le_of_not_lt hge)
  simp [Board.piece_at, List.getD_eq_getElem?_getD, hnone] at h

lemma boardChanges_eq_nil_iff (prev curr : Board) :
    boardChanges prev curr = [] ↔
      ∀ sq ∈ List.range 64, prev.piece_at sq = curr.piece_at sq := by
  unfold boardChanges
  rw [List.filterMap_eq_nil_iff]
  constructor
  · intro h sq hsq
    have := h sq hsq
    by_contra hne
    simp [hne] at this
  · intro h sq hsq
    simp [h sq hsq]

lemma boardChanges_self (b : Board) : boardChanges b b = [] := by
  rw [boardChanges_eq_nil_iff]
  intro sq _
  rfl

/-- If every square of the 64 agrees between `b` and `c` except that they
differ at some square below 64, `boardsMatch` is false. -/
lemma boardsMatch_false_of_diff (b c : Board) (sq : Nat) (hlt : sq < 64)
    (hne : b.piece_at sq ≠ c.piece_at sq) : boardsMatch b c = false := by
  unfold boardsMatch
  rw [List.all_eq_false]
  refine ⟨sq, List.mem_range.mpr hlt, ?_⟩
  simpa using hne

/-! ### The fallback scan -/

lemma findLegalGo_eq_find? (prev curr : Board) (l : List Move) :
    findLegalGo prev curr l =
      l.find? (fun m => boardsMatch (applyMove prev m) curr) := by
  induction l with
  | nil => rfl
  | cons m rest ih =>
    unfold findLegalGo
    rw [List.find?_cons]
    by_cases h : boardsMatch (applyMove prev m) curr
    · simp [h]
    · simp only [Bool.not_eq_true] at h
      simp [h, ih]

lemma findLegalGo_eq_none (prev curr : Board) (l : List Move)
    (h : ∀ m ∈ l, boardsMatch (applyMove prev m) curr = false) :
    findLegalGo prev curr l = none := by
  rw [findLegalGo_eq_find?, List.find?_eq_none]
  intro m hm
  simp [h m hm]

/-- When the diff is nonempty and each fast-path block declines, the
detection falls through to the legal-move scan. -/
lemma detect_move_eq_find (prev curr : Board)
    (h0 : boardChanges prev curr ≠ [])
    (h2 : detect2Block (boardChanges prev curr) curr = none)
    (h4 : detect4Block (boardChanges prev curr) = none)
    (h3 : detect3Block (boardChanges prev curr) = none) :
    detect_move prev curr = find_legal_move prev curr := by
  unfold detect_move
  have hlen : (boardChanges prev curr).length ≠ 0 := by
    simpa [List.length_eq_zero] using h0
  simp [hlen, h2, h4, h3]

/-- An empty diff makes detection return `None` immediately. -/
lemma detect_move_self (b : Board) : detect_move b b = none := by
  unfold detect_move
  simp [boardChanges_self]

/-! ### Nat geometry -/

lemma squareFile_mkSquare (f r : Nat) (h : f < 8) :
    squareFile (mkSquare f r) = f := by
  unfold squareFile mkSquare
  omega

lemma squareRank_mkSquare (f r : Nat) (h : f < 8) :
    squareRank (mkSquare f r) = r := by
  unfold squareRank mkSquare
  omega

lemma square_ne_of_file_ne {s t : Nat} (h : squareFile s ≠ squareFile t) :
    s ≠ t := by
  intro he
  exact h (by rw [he])

lemma square_ne_of_rank_ne {s t : Nat} (h : squareRank s ≠ squareRank t) :
    s ≠ t := by
  intro he
  exact h (by rw [he])

lemma shiftSq_some {s t : Nat} {df dr : Int}
    (h : shiftSq s df dr = some t) :
    (squareFile t : Int) = squareFile s + df ∧
    (squareRank t : Int) = squareRank s + dr ∧ t < 64 := by
  unfold shiftSq at h
  split at h
  case isTrue hc =>
    obtain ⟨hf0, hf8, hr0, hr8⟩ := hc
    have ht : t = mkSquare ((squareFile s : Int) + df).toNat
        ((squareRank s : Int) + dr).toNat := by
      exact (Option.some_inj.mp h).symm
    subst ht
    have hfl : ((squareFile s : Int) + df).toNat < 8 := by omega
    rw [squareFile_mkSquare _ _ hfl, squareRank_mkSquare _ _ hfl]
    refine ⟨by omega, by omega, ?_⟩
    unfold mkSquare
    have hgoal : ((squareRank s : Int) + dr).toNat * 8 +
        ((squareFile s : Int) + df).toNat < 64 := by omega
    exact hgoal
  case isFalse => exact absurd h (by simp)

/-- Sliding along a direction strictly advances the nonzero coordinate of
the direction, for every square on the ray. -/
lemma rayGo_progress (b : Board) (d : Int × Int) :
    ∀ (fuel : Nat) (cur t : Nat), t ∈ rayGo b d fuel cur →
      (0 < d.1 → squareFile cur < squareFile t) ∧
      (d.1 < 0 → squareFile t < squareFile cur) ∧
      (0 < d.2 → squareRank cur < squareRank t) ∧
      (d.2 < 0 → squareRank t < squareRank cur) := by
  intro fuel
  induction fuel with
  | zero => intro cur t ht; simp [rayGo] at ht
  | succ n ih =>
    intro cur t ht
    unfold rayGo at ht
    revert ht
    cases hshift : shiftSq cur d.1 d.2 with
    | none => intro ht; simp at ht
    | some nxt =>
      obtain ⟨hf, hr, _⟩ := shiftSq_some hshift
      intro ht
      by_cases hocc : (b.piece_at nxt).isSome
      · simp [hocc] at ht
        subst ht
        refine ⟨?_, ?_, ?_, ?_⟩ <;> intro hd <;> omega
      · simp [hocc] at ht
        rcases ht with he | htail
        · subst he
          refine ⟨?_, ?_, ?_, ?_⟩ <;> intro hd <;> omega
        · have := ih nxt t htail
          refine ⟨?_, ?_, ?_, ?_⟩ <;> intro hd
          · have h2 := this.1 hd; omega
          · have h2 := this.2.1 hd; omega
          · have h2 := this.2.2.1 hd; omega
          · have h2 := this.2.2.2 hd; omega

lemma ray_mem_ne (b : Board) (s : Nat) (d : Int × Int) (t : Nat)
    (hd : d.1 ≠ 0 ∨ d.2 ≠ 0) (h : t ∈ ray b s d) : t ≠ s := by
  have hp := rayGo_progress b d 7 s t h
  rcases hd with h1 | h1
  · rcases h1.lt_or_lt with hlt | hlt
    · exact fun he => absurd (hp.2.1 hlt) (by rw [he]; omega)
    · exact fun he => absurd (hp.1 hlt) (by rw [he]; omega)
  · rcases h1.lt_or_lt with hlt | hlt
    · exact fun he => absurd (hp.2.2.2 hlt) (by rw [he]; omega)
    · exact fun he => absurd (hp.2.2.1 hlt) (by rw [he]; omega)

/-! ### What the generator can emit -/

lemma pawnDir_ne_zero (c : Color) : pawnDir c ≠ 0 := by
  cases c <;> simp [pawnDir]

lemma mem_expandPromo {f t : Nat} {lastRank : Nat} {m : Move}
    (h : m ∈ expandPromo f t lastRank) :
    m.fromSq = f ∧ m.toSq = t := by
  unfold expandPromo at h
  split at h
  · rw [List.mem_map] at h
    obtain ⟨pt, _, hm⟩ := h
    subst hm
    exact ⟨rfl, rfl⟩
  · rw [List.mem_singleton] at h
    subst h
    exact ⟨rfl, rfl⟩

lemma mem_pawnPushes {b : Board} {f : Nat} {c : Color} {m : Move}
    (h : m ∈ pawnPushes b f c) : m.fromSq = f ∧ m.toSq ≠ f := by
  unfold pawnPushes at h
  revert h
  cases hs1 : shiftSq f 0 (pawnDir c) with
  | none => intro h; simp at h
  | some t1 =>
    intro h
    dsimp only at h
    have ht1 : t1 ≠ f := by
      obtain ⟨_, hr, _⟩ := shiftSq_some hs1
      have := pawnDir_ne_zero c
      exact square_ne_of_rank_ne (by omega)
    split at h
    · rw [List.mem_append] at h
      rcases h with h | h
      · obtain ⟨h1, h2⟩ := mem_expandPromo h
        exact ⟨h1, by rw [h2]; exact ht1⟩
      · split at h
        · revert h
          cases hs2 : shiftSq t1 0 (pawnDir c) with
          | none => intro h; simp at h
          | some t2 =>
            intro h
            dsimp only at h
            split at h
            · rw [List.mem_singleton] at h
              subst h
              refine ⟨rfl, ?_⟩
              show t2 ≠ f
              obtain ⟨_, hr1, _⟩ := shiftSq_some hs1
              obtain ⟨_, hr2, _⟩ := shiftSq_some hs2
              have := pawnDir_ne_zero c
              exact square_ne_of_rank_ne (by omega)
            · simp at h
        · simp at h
    · simp at h

lemma mem_pawnCaptures {b : Board} {f : Nat} {c : Color} {m : Move}
    (h : m ∈ pawnCaptures b f c) : m.fromSq = f ∧ m.toSq ≠ f := by
  unfold pawnCaptures at h
  rw [List.mem_flatMap] at h
  obtain ⟨df, hdf, h⟩ := h
  have hdf' : df = 1 ∨ df = -1 := by simpa using hdf
  revert h
  cases hs : shiftSq f df (pawnDir c) with
  | none => intro h; simp at h
  | some t =>
    intro h
    dsimp only at h
    have htne : t ≠ f := by
      obtain ⟨hf, _, _⟩ := shiftSq_some hs
      apply square_ne_of_file_ne
      rcases hdf' with h1 | h1 <;> subst h1 <;> omega
    revert h
    cases hp : b.piece_at t with
    | some q =>
      intro h
      dsimp only at h
      split at h
      · obtain ⟨h1, h2⟩ := mem_expandPromo h
        exact ⟨h1, by rw [h2]; exact htne⟩
      · simp at h
    | none =>
      intro h
      dsimp only at h
      split at h
      · rw [List.mem_singleton] at h
        subst h
        exact ⟨rfl, htne⟩
      · simp at h

lemma mem_pawnMovesFrom {b : Board} {f : Nat} {c : Color} {m : Move}
    (h : m ∈ pawnMovesFrom b f c) : m.fromSq = f ∧ m.toSq ≠ f := by
  unfold pawnMovesFrom at h
  rw [List.mem_append] at h
  rcases h with h | h
  · exact mem_pawnPushes h
  · exact mem_pawnCaptures h

lemma mem_pieceMovesFrom {b : Board} {f : Nat} {p : Piece} {m : Move}
    (h : m ∈ pieceMovesFrom b f p) :
    m.fromSq = f ∧ m.toSq ≠ f ∧
      (p.pieceType = PieceType.king →
        squareFile m.toSq < squareFile f + 2 ∧
        squareFile f < squareFile m.toSq + 2) := by
  unfold pieceMovesFrom at h
  cases hpt : p.pieceType <;> rw [hpt] at h <;> dsimp only at h
  case pawn =>
    obtain ⟨h1, h2⟩ := mem_pawnMovesFrom h
    exact ⟨h1, h2, by intro hk; cases hk⟩
  case knight =>
    rw [List.mem_filterMap] at h
    obtain ⟨d, hd, hfd⟩ := h
    have hd1 : d.1 ≠ 0 := by
      have hall : ∀ d ∈ knightOffsets, d.1 ≠ 0 := by decide
      exact hall d hd
    revert hfd
    cases hs : shiftSq f d.1 d.2 with
    | none => intro hfd; simp at hfd
    | some t =>
      intro hfd
      dsimp only at hfd
      split at hfd
      · obtain ⟨hf, _, _⟩ := shiftSq_some hs
        rw [Option.some_inj] at hfd
        subst hfd
        refine ⟨rfl, ?_, by intro hk; cases hk⟩
        show t ≠ f
        apply square_ne_of_file_ne
        omega
      · simp at hfd
  case king =>
    rw [List.mem_filterMap] at h
    obtain ⟨d, hd, hfd⟩ := h
    have hdfacts : (d.1 ≠ 0 ∨ d.2 ≠ 0) ∧ -1 ≤ d.1 ∧ d.1 ≤ 1 := by
      have hall : ∀ d ∈ kingOffsets, (d.1 ≠ 0 ∨ d.2 ≠ 0) ∧
          -1 ≤ d.1 ∧ d.1 ≤ 1 := by decide
      exact hall d hd
    revert hfd
    cases hs : shiftSq f d.1 d.2 with
    | none => intro hfd; simp at hfd
    | some t =>
      intro hfd
      dsimp only at hfd
      split at hfd
      · obtain ⟨hf, hr, _⟩ := shiftSq_some hs
        rw [Option.some_inj] at hfd
        subst hfd
        refine ⟨rfl, ?_, ?_⟩
        · show t ≠ f
          rcases hdfacts.1 with h1 | h1
          · exact square_ne_of_file_ne (by omega)
          · exact square_ne_of_rank_ne (by omega)
        · intro _
          show squareFile t < squareFile f + 2 ∧ squareFile f < squareFile t + 2
          constructor <;> omega
      · simp at hfd
  all_goals {
    rw [List.mem_flatMap] at h
    obtain ⟨d, hd, hray⟩ := h
    rw [List.mem_filterMap] at hray
    obtain ⟨t, ht, hfd⟩ := hray
    have hdne : d.1 ≠ 0 ∨ d.2 ≠ 0 := by
      first
      | exact (show ∀ d ∈ bishopDirs, d.1 ≠ 0 ∨ d.2 ≠ 0 by decide) d hd
      | exact (show ∀ d ∈ rookDirs, d.1 ≠ 0 ∨ d.2 ≠ 0 by decide) d hd
      | exact (show ∀ d ∈ rookDirs ++ bishopDirs, d.1 ≠ 0 ∨ d.2 ≠ 0
          by decide) d hd
    split at hfd
    · rw [Option.some_inj] at hfd
      subst hfd
      exact ⟨rfl, ray_mem_ne b f d t hdne ht, by intro hk; cases hk⟩
    · simp at hfd
  }

lemma mem_castleMoves {b : Board} {m : Move} (h : m ∈ castleMoves b) :
    m.fromSq = mkSquare 4 (backRank b.turn) ∧
    b.piece_at m.fromSq = some ⟨PieceType.king, b.turn⟩ ∧
    (m.toSq = mkSquare 6 (backRank b.turn) ∨
      m.toSq = mkSquare 2 (backRank b.turn)) := by
  unfold castleMoves at h
  dsimp only at h
  rw [List.mem_append] at h
  rcases h with h | h
  · split at h
    · rename_i hc
      rw [List.mem_singleton] at h
      subst h
      exact ⟨rfl, by simpa using hc.2.1, Or.inl rfl⟩
    · exact absurd h (List.not_mem_nil m)
  · split at h
    · rename_i hc
      rw [List.mem_singleton] at h
      subst h
      exact ⟨rfl, by simpa using hc.2.1, Or.inr rfl⟩
    · exact absurd h (List.not_mem_nil m)

lemma mkSquare_ne_of_file_ne {a c r : Nat} (ha : a < 8) (hc : c < 8)
    (hne : a ≠ c) : mkSquare a r ≠ mkSquare c r := by
  unfold mkSquare
  omega

lemma applyMove_clears_from (b : Board) (m : Move) (p : Piece)
    (hp : b.piece_at m.fromSq = some p)
    (hne : m.toSq ≠ m.fromSq)
    (hnc : ¬(p.pieceType = PieceType.king ∧
      (squareFile m.fromSq + 2 ≤ squareFile m.toSq ∨
        squareFile m.toSq + 2 ≤ squareFile m.fromSq))) :
    (applyMove b m).piece_at m.fromSq = none := by
  have hlt := piece_at_some_lt b m.fromSq p hp
  unfold applyMove
  rw [hp]
  unfold Board.piece_at
  dsimp only
  rw [decide_eq_false hnc]
  simp only [Bool.false_eq_true, if_false]
  rw [getD_set_ne _ _ _ _ _ hne]
  split
  · rename_i hEp
    have hfiles : squareFile m.fromSq ≠ squareFile m.toSq :=
      (of_decide_eq_true hEp).2.2.1
    rw [getD_set_ne, getD_set_self _ _ _ _ hlt]
    have h1 : squareFile m.toSq < 8 := Nat.mod_lt _ (by omega)
    have h2 : m.fromSq = squareRank m.fromSq * 8 + squareFile m.fromSq := by
      unfold squareRank squareFile
      omega
    have h3 : squareFile m.fromSq < 8 := Nat.mod_lt _ (by omega)
    unfold mkSquare
    omega
  · exact getD_set_self _ _ _ _ hlt

lemma applyMove_castle_from (b : Board) (m : Move)
    (hp : b.piece_at m.fromSq = some ⟨PieceType.king, b.turn⟩)
    (hfrom : m.fromSq = mkSquare 4 (backRank b.turn))
    (hto : m.toSq = mkSquare 6 (backRank b.turn) ∨
      m.toSq = mkSquare 2 (backRank b.turn)) :
    (applyMove b m).piece_at m.fromSq = none := by
  have hlt := piece_at_some_lt b m.fromSq _ hp
  have hf4 : squareFile m.fromSq = 4 := by
    rw [hfrom]
    exact squareFile_mkSquare 4 _ (by omega)
  have hcast : (⟨PieceType.king, b.turn⟩ : Piece).pieceType = PieceType.king ∧
      (squareFile m.fromSq + 2 ≤ squareFile m.toSq ∨
        squareFile m.toSq + 2 ≤ squareFile m.fromSq) := by
    refine ⟨rfl, ?_⟩
    rcases hto with hto | hto <;> rw [hto, hf4]
    · left
      rw [squareFile_mkSquare 6 _ (by omega)]
    · right
      rw [squareFile_mkSquare 2 _ (by omega)]
  unfold applyMove
  rw [hp]
  unfold Board.piece_at
  dsimp only
  rw [decide_eq_true hcast]
  simp only [if_true]
  rcases hto with hto | hto
  · have hlt46 : squareFile m.fromSq < squareFile m.toSq := by
      rw [hf4, hto, squareFile_mkSquare 6 _ (by omega)]
      omega
    rw [decide_eq_true hlt46]
    simp only [if_true]
    rw [getD_set_ne, getD_set_ne, getD_set_ne, getD_set_self _ _ _ _ hlt] <;>
      rw [hfrom] <;>
      exact mkSquare_ne_of_file_ne (by omega) (by omega) (by omega)
  · have hlt42 : ¬ squareFile m.fromSq < squareFile m.toSq := by
      rw [hf4, hto, squareFile_mkSquare 2 _ (by omega)]
      omega
    rw [decide_eq_false hlt42]
    simp only [Bool.false_eq_true, if_false]
    rw [getD_set_ne, getD_set_ne, getD_set_ne, getD_set_self _ _ _ _ hlt] <;>
      rw [hfrom] <;>
      exact mkSquare_ne_of_file_ne (by omega) (by omega) (by omega)

/-- No legal move leaves the board's piece placement unchanged: the
origin square was occupied and is emptied. -/
lemma legalMoves_clears_from (b : Board) (m : Move) (hm : m ∈ legalMoves b) :
    m.fromSq < 64 ∧ b.piece_at m.fromSq ≠ none ∧
      (applyMove b m).piece_at m.fromSq = none := by
  have hps : m ∈ pseudoMoves b := List.mem_of_mem_filter hm
  unfold pseudoMoves at hps
  rw [List.mem_append] at hps
  rcases hps with hps | hps
  · rw [List.mem_flatMap] at hps
    obtain ⟨f, hf, hps⟩ := hps
    rw [List.mem_range] at hf
    revert hps
    cases hpf : b.piece_at f with
    | none => intro hps; simp at hps
    | some p =>
      intro hps
      dsimp only at hps
      split at hps
      · obtain ⟨hfrom, hto, hk⟩ := mem_pieceMovesFrom hps
        subst hfrom
        refine ⟨hf, by rw [hpf]; simp, ?_⟩
        apply applyMove_clears_from b m p hpf hto
        intro ⟨hking, habs⟩
        have := hk hking
        omega
      · simp at hps
  · obtain ⟨hfrom, hpf, hto⟩ := mem_castleMoves hps
    refine ⟨?_, by rw [hpf]; simp, ?_⟩
    · rw [hfrom]
      rcases hturn : b.turn with _ | _ <;> decide
    · exact applyMove_castle_from b m hpf hfrom hto

/-- If `b` and `curr` agree cell-wise, no legal move of `b` reproduces
`curr`. -/
lemma legal_apply_ne_of_agree (b curr : Board)
    (hcells : ∀ sq ∈ List.range 64, b.piece_at sq = curr.piece_at sq)
    (m : Move) (hm : m ∈ legalMoves b) :
    boardsMatch (applyMove b m) curr = false := by
  obtain ⟨hlt, hocc, hclear⟩ := legalMoves_clears_from b m hm
  apply boardsMatch_false_of_diff _ _ m.fromSq hlt
  rw [hclear, ← hcells m.fromSq (List.mem_range.mpr hlt)]
  exact fun he => hocc he.symm

/-- With an empty diff the fallback scan also finds nothing. -/
lemma find_legal_move_of_changes_nil (prev curr : Board)
    (h : boardChanges prev curr = []) :
    find_legal_move prev curr = none := by
  unfold find_legal_move
  apply findLegalGo_eq_none
  intro m hm
  exact legal_apply_ne_of_agree prev curr
    ((boardChanges_eq_nil_iff prev curr).mp h) m hm

/-! ### Runs of the tracker (for the Game Record invariant) -/

lemma applyAll_append_one (b : Board) (l : List Move) (m : Move) :
    applyAll b (l ++ [m]) = applyMove (applyAll b l) m := by
  unfold applyAll
  rw [List.foldl_append]
  rfl

lemma chainOK_take (k : Nat) :
    ∀ (p : Board) (snaps : List Board), chainOK p snaps = true →
      chainOK p (snaps.take k) = true := by
  induction k with
  | zero => intro p snaps _; rfl
  | succ n ih =>
    intro p snaps h
    cases snaps with
    | nil => rfl
    | cons c rest =>
      rw [List.take_succ_cons]
      unfold chainOK at h ⊢
      rw [Bool.and_eq_true] at h ⊢
      exact ⟨h.1, ih c rest h.2⟩

/-- The run invariant: starting from a state whose accepted snapshot is
the replay of its recorded moves, an explained snapshot stream preserves
that property. -/
lemma trackRun_invariant (init : Board) :
    ∀ (snaps : List Board) (st : TrackerState) (cur : Board),
      st.current_board = some cur →
      applyAll init st.moves = cur →
      chainOK cur snaps = true →
      (snaps.foldl (fun s nb => (track_move s nb).2) st).current_board =
        some (applyAll init
          (snaps.foldl (fun s nb => (track_move s nb).2) st).moves) := by
  intro snaps
  induction snaps with
  | nil =>
    intro st cur hcur hrep _
    simpa [hcur] using congrArg some hrep.symm
  | cons c rest ih =>
    intro st cur hcur hrep hchain
    unfold chainOK at hchain
    rw [Bool.and_eq_true] at hchain
    obtain ⟨hstep, hchain⟩ := hchain
    rw [List.foldl_cons]
    unfold stepOK at hstep
    rw [Bool.or_eq_true] at hstep
    have htrack : (track_move st c).2.current_board = some c ∧
        applyAll init (track_move st c).2.moves = c := by
      unfold track_move
      rw [hcur]
      dsimp only
      rcases hstep with hstep | hstep
      · have hc : c = cur := of_decide_eq_true hstep
        subst hc
        rw [detect_move_self]
        dsimp only
        exact ⟨rfl, hrep⟩
      · revert hstep
        cases hdet : detect_move cur c with
        | none => intro hstep; cases hstep
        | some m =>
          intro hstep
          dsimp only at hstep ⊢
          have happ : applyMove cur m = c := of_decide_eq_true hstep
          refine ⟨rfl, ?_⟩
          show applyAll init (st.moves ++ [m]) = c
          rw [applyAll_append_one, hrep, happ]
    exact ih (track_move st c).2 c htrack.1 htrack.2 hchain

/-! ### Validator lemmas -/

lemma pawnRankIssues_ne_nil {b : Board} {r : Nat} {tag : String} {sq : Nat}
    {p : Piece} (hrank : squareRank sq = r) (hp : b.piece_at sq = some p)
    (hpt : p.pieceType = PieceType.pawn) :
    pawnRankIssues b r tag ≠ [] := by
  intro hnil
  have hsq : mkSquare (squareFile sq) r = sq := by
    unfold mkSquare squareFile
    unfold squareRank at hrank
    omega
  have hmem : ("Pawn on " ++ tag ++ " rank at " ++ squareName sq) ∈
      pawnRankIssues b r tag := by
    unfold pawnRankIssues
    rw [List.mem_filterMap]
    refine ⟨squareFile sq, ?_, ?_⟩
    · rw [List.mem_range]
      unfold squareFile
      omega
    · rw [hsq, hp]
      dsimp only
      rw [if_pos hpt]
  rw [hnil] at hmem
  exact absurd hmem (List.not_mem_nil _)

lemma validate_false_of_white_kings (b : Board)
    (h : countPieces b PieceType.king Color.white ≠ 1) :
    (validate_position b).1 = false := by
  have hk : validate_kings b = (false,
      ["Invalid white king count: " ++
        Nat.repr (countPieces b PieceType.king Color.white)]) := by
    unfold validate_kings
    rw [if_pos h]
  unfold validate_position
  rw [hk]
  simp

lemma validate_false_of_pawnEdge (b : Board)
    (h : pawnOnEdgeRank b = true) :
    (validate_position b).1 = false := by
  unfold pawnOnEdgeRank at h
  rw [List.any_eq_true] at h
  obtain ⟨sq, _, hsq⟩ := h
  rw [Bool.and_eq_true] at hsq
  obtain ⟨hrank, hpawn⟩ := hsq
  have hrank' : squareRank sq = 0 ∨ squareRank sq = 7 := by
    simpa using hrank
  obtain ⟨p, hp, hpt⟩ : ∃ p, b.piece_at sq = some p ∧
      p.pieceType = PieceType.pawn := by
    revert hpawn
    cases hq : b.piece_at sq with
    | none => intro hpawn; cases hpawn
    | some q =>
      intro hpawn
      exact ⟨q, rfl, by simpa using hpawn⟩
  have hpp : (validate_pawn_placement b).1 = false := by
    unfold validate_pawn_placement
    dsimp only
    rw [List.isEmpty_eq_false]
    rcases hrank' with hr | hr
    · intro hnil
      rw [List.append_eq_nil] at hnil
      exact pawnRankIssues_ne_nil hr hp hpt hnil.1
    · intro hnil
      rw [List.append_eq_nil] at hnil
      exact pawnRankIssues_ne_nil hr hp hpt hnil.2
  unfold validate_position
  rcases hvk : validate_kings b with ⟨ok1, i1⟩
  dsimp only
  cases ok1 with
  | false => simp
  | true =>
    simp only [Bool.true_eq_false, not_true, if_neg, Bool.not_true,
      Bool.false_eq_true, if_false]
    rcases hvc : validate_piece_counts b with ⟨ok2, i2⟩
    dsimp only
    cases ok2 with
    | false => simp
    | true =>
      simp only [Bool.true_eq_false, not_true]
      rcases hvp : validate_pawn_placement b with ⟨ok3, i3⟩
      rw [hvp] at hpp
      dsimp only at hpp ⊢
      subst hpp
      simp

/-! ### Header dictionary lemmas -/

lemma lookupHeader_dictSet_self (h : List (String × String)) (k v : String) :
    lookupHeader (dictSet h k v) k = some v := by
  induction h with
  | nil => simp [dictSet, lookupHeader]
  | cons kv rest ih =>
    unfold dictSet
    by_cases hk : kv.1 = k
    · rw [if_pos hk]
      unfold lookupHeader
      rw [if_pos rfl]
    · rw [if_neg hk]
      unfold lookupHeader
      rw [if_neg hk]
      exact ih

lemma lookupHeader_dictSet_ne (h : List (String × String)) (k v k' : String)
    (hne : k' ≠ k) :
    lookupHeader (dictSet h k v) k' = lookupHeader h k' := by
  induction h with
  | nil =>
    unfold dictSet lookupHeader
    rw [if_neg (fun he => hne he.symm)]
    rfl
  | cons kv rest ih =>
    unfold dictSet
    by_cases hk : kv.1 = k
    · rw [if_pos hk]
      have hkk' : ¬ (kv.1 = k') := by
        rw [hk]
        exact fun he => hne he.symm
      unfold lookupHeader
      rw [if_neg (fun he : k = k' => hne he.symm), if_neg hkk']
    · rw [if_neg hk]
      unfold lookupHeader
      by_cases hk' : kv.1 = k'
      · rw [if_pos hk', if_pos hk']
      · rw [if_neg hk', if_neg hk']
        exact ih

/-! ### The get_pgn state effect -/

lemma get_pgn_state (s : GenState) (include_headers : Bool) :
    (get_pgn s include_headers).2 =
      match pgnResultUpdate s.moves with
      | none => s
      | some r => { s with headers := dictSet s.headers "Result" r } := by
  unfold get_pgn pgnResultUpdate
  by_cases hnil : s.moves = []
  · rw [if_pos hnil, if_pos hnil]
  · rw [if_neg hnil, if_neg hnil]
    dsimp only
    split
    · rfl
    · split
      · rfl
      · rfl

/-! ## Claim theorems -/

/-- Claim C8: for every snapshot whose white king count is not exactly
one, `validate_position` rejects (accepted is false) regardless of any
other property; and every snapshot with a pawn of either color on rank 1
or rank 8 is rejected. -/
theorem c8_validator_fatality (b : Board) :
    (countPieces b PieceType.king Color.white ≠ 1 →
      (validate_position b).1 = false) ∧
    (pawnOnEdgeRank b = true → (validate_position b).1 = false) :=
  ⟨validate_false_of_white_kings b, validate_false_of_pawnEdge b⟩

/-- Witness for C8: a two-white-king snapshot and a pawn-on-a1 snapshot,
both rejected. -/
theorem c8_validator_fatality_witness :
    (countPieces twoKingsBoard PieceType.king Color.white ≠ 1 ∧
      (validate_position twoKingsBoard).1 = false) ∧
    (pawnOnEdgeRank pawnA1Board = true ∧
      (validate_position pawnA1Board).1 = false) :=
  ⟨⟨by decide, (c8_validator_fatality twoKingsBoard).1 (by decide)⟩,
   ⟨by decide, (c8_validator_fatality pawnA1Board).2 (by decide)⟩⟩

/-- Claim C9: feeding a tracker whose accepted snapshot is `S` the same
snapshot `S` twice yields no detected move both times (the `NoChange`
outcome) and leaves the recorded move count unchanged. -/
theorem c9_nochange_idempotent (st : TrackerState) (S : Board)
    (hcur : st.current_board = some S) :
    (track_move st S).1 = none ∧
    (track_move st S).2.moves.length = st.moves.length ∧
    (track_move (track_move st S).2 S).1 = none ∧
    (track_move (track_move st S).2 S).2.moves.length = st.moves.length := by
  have h1 : track_move st S =
      (none, ⟨some S, some S, st.moves⟩) := by
    unfold track_move
    rw [hcur]
    dsimp only
    rw [detect_move_self]
  have h2 : track_move (⟨some S, some S, st.moves⟩ : TrackerState) S =
      (none, ⟨some S, some S, st.moves⟩) := by
    unfold track_move
    dsimp only
    rw [detect_move_self]
  rw [h1, h2]
  exact ⟨rfl, rfl, rfl, rfl⟩

/-- Witness for C9: the freshly initialised tracker at the standard start
position fed the start position twice. -/
theorem c9_nochange_idempotent_witness :
    (track_move (set_initial_position startBoard) startBoard).1 = none ∧
    (track_move (set_initial_position startBoard) startBoard).2.moves.length =
      (set_initial_position startBoard).moves.length ∧
    (track_move (track_move (set_initial_position startBoard) startBoard).2
      startBoard).1 = none ∧
    (track_move (track_move (set_initial_position startBoard) startBoard).2
      startBoard).2.moves.length =
      (set_initial_position startBoard).moves.length :=
  c9_nochange_idempotent (set_initial_position startBoard) startBoard rfl

/-- Claim C10: `set_result` with a string outside the four PGN result
tokens changes nothing (and raises no error); with one of the four tokens
it sets the Result header to that string and leaves every other header
and the move list unchanged. -/
theorem c10_set_result (s : GenState) (r : String) :
    (¬(r = "1-0" ∨ r = "0-1" ∨ r = "1/2-1/2" ∨ r = "*") →
      set_result s r = s) ∧
    ((r = "1-0" ∨ r = "0-1" ∨ r = "1/2-1/2" ∨ r = "*") →
      lookupHeader (set_result s r).headers "Result" = some r ∧
      (∀ k, k ≠ "Result" →
        lookupHeader (set_result s r).headers k = lookupHeader s.headers k) ∧
      (set_result s r).moves = s.moves) := by
  constructor
  · intro h
    unfold set_result
    rw [if_neg h]
  · intro h
    unfold set_result
    rw [if_pos h]
    refine ⟨lookupHeader_dictSet_self s.headers "Result" r, ?_, rfl⟩
    intro k hk
    exact lookupHeader_dictSet_ne s.headers "Result" r k hk

/-- Witness for C10: a rejected garbage result string and an accepted
result token, on the default header set. -/
theorem c10_set_result_witness :
    set_result (generatorInit "2024.01.01") "2-0" = generatorInit "2024.01.01" ∧
    lookupHeader (set_result (generatorInit "2024.01.01") "1-0").headers
      "Result" = some "1-0" :=
  ⟨(c10_set_result (generatorInit "2024.01.01") "2-0").1 (by decide),
   ((c10_set_result (generatorInit "2024.01.01") "1-0").2 (by decide)).1⟩

/-- Counterexample to claim C1 as stated: one `track_move` call with a
corrupted snapshot (e2 emptied, a black pawn appearing on e4) is accepted
by the 2-change fast path, yet the replay of the recorded moves from the
initial snapshot does not reproduce the accepted snapshot even cell-wise. -/
theorem c1_counterexample :
    (runTracker startBoard [garbageE4Board]).current_board =
      some garbageE4Board ∧
    boardsMatch
      (applyAll startBoard (runTracker startBoard [garbageE4Board]).moves)
      garbageE4Board = false := by
  constructor
  · decide
  · decide

/-- Claim C1 (amended): for every tracker run from `set_initial_position`
through any sequence of `track_move` calls in which each snapshot either
equals its predecessor or is exactly the result of applying the detected
move to its predecessor, the accepted snapshot equals the position
obtained by replaying the recorded move sequence from the initial
snapshot, at every prefix of the call sequence. -/
theorem c1_replay_invariant (init : Board) (snaps : List Board) (k : Nat)
    (h : chainOK init snaps = true) :
    (runTracker init (snaps.take k)).current_board =
      some (applyAll init (runTracker init (snaps.take k)).moves) :=
  trackRun_invariant init (snaps.take k) (set_initial_position init) init
    rfl rfl (chainOK_take k init snaps h)

/-- Witness for C1 (amended): the run whose only snapshot is the true
position after 1.e4. -/
theorem c1_replay_invariant_witness :
    chainOK startBoard [e4Board] = true ∧
    (runTracker startBoard [e4Board]).current_board =
      some (applyAll startBoard (runTracker startBoard [e4Board]).moves) :=
  ⟨by decide, c1_replay_invariant startBoard [e4Board] 1 (by decide)⟩

/-- Counterexample to claim C2 as stated: an unresolved `track_move` call
(five scattered changes, no legal-move explanation) leaves the move list
alone but replaces the accepted snapshot, so the tracker state is not
"exactly as it was before the call". -/
theorem c2_counterexample :
    (track_move (set_initial_position startBoard) fiveChangeBoard).1 =
      none ∧
    (track_move (set_initial_position startBoard) fiveChangeBoard).2.moves =
      (set_initial_position startBoard).moves ∧
    (track_move (set_initial_position startBoard)
        fiveChangeBoard).2.current_board ≠
      (set_initial_position startBoard).current_board := by
  refine ⟨by decide, by decide, by decide⟩

/-- Claim C2 (amended): when inference is unresolved (nonempty diff, all
three fast-path blocks decline, and no legal move of the previous
accepted snapshot reproduces the new snapshot cell-wise), the call
returns no move and records nothing, but the accepted snapshot is
replaced by the new snapshot (and the previous-board slot by the old
accepted snapshot). -/
theorem c2_unresolved_effect (st : TrackerState) (cur new : Board)
    (hcur : st.current_board = some cur)
    (hne : boardChanges cur new ≠ [])
    (h2 : detect2Block (boardChanges cur new) new = none)
    (h4 : detect4Block (boardChanges cur new) = none)
    (h3 : detect3Block (boardChanges cur new) = none)
    (hall : ∀ m ∈ legalMoves cur, boardsMatch (applyMove cur m) new = false) :
    (track_move st new).1 = none ∧
    (track_move st new).2.moves = st.moves ∧
    (track_move st new).2.current_board = some new ∧
    (track_move st new).2.previous_board = some cur := by
  have hdet : detect_move cur new = none := by
    rw [detect_move_eq_find cur new hne h2 h4 h3]
    unfold find_legal_move
    exact findLegalGo_eq_none cur new (legalMoves cur) hall
  unfold track_move
  rw [hcur]
  dsimp only
  rw [hdet]
  exact ⟨rfl, rfl, rfl, rfl⟩

/-- Witness for C2 (amended): the five-scattered-change snapshot against
the freshly initialised tracker at the standard start. -/
theorem c2_unresolved_effect_witness :
    (track_move (set_initial_position startBoard) fiveChangeBoard).1 =
      none ∧
    (track_move (set_initial_position startBoard) fiveChangeBoard).2.moves =
      (set_initial_position startBoard).moves ∧
    (track_move (set_initial_position startBoard)
        fiveChangeBoard).2.current_board = some fiveChangeBoard ∧
    (track_move (set_initial_position startBoard)
        fiveChangeBoard).2.previous_board = some startBoard :=
  c2_unresolved_effect (set_initial_position startBoard) startBoard
    fiveChangeBoard rfl (by decide) (by decide) (by decide) (by decide)
    (by decide)

/-- Claim C7: whenever the three diff-shape fast paths all decline,
`_detect_move` returns exactly the first legal move of the previous
position (in the engine's enumeration order) whose application reproduces
the current snapshot cell-wise, and returns `None` (Unresolved) when no
legal move matches. -/
theorem c7_fallback_first_match (prev curr : Board)
    (h2 : detect2Block (boardChanges prev curr) curr = none)
    (h4 : detect4Block (boardChanges prev curr) = none)
    (h3 : detect3Block (boardChanges prev curr) = none) :
    detect_move prev curr = fallbackSpec prev curr ∧
    ((∀ m ∈ legalMoves prev, boardsMatch (applyMove prev m) curr = false) →
      detect_move prev curr = none) := by
  have hspec : detect_move prev curr = fallbackSpec prev curr := by
    by_cases hnil : boardChanges prev curr = []
    · have hdet : detect_move prev curr = none := by
        unfold detect_move
        simp [hnil]
      have hfb : fallbackSpec prev curr = none := by
        unfold fallbackSpec
        rw [List.find?_eq_none]
        intro m hm
        rw [legal_apply_ne_of_agree prev curr
          ((boardChanges_eq_nil_iff prev curr).mp hnil) m hm]
        exact Bool.false_ne_true
      rw [hdet, hfb]
    · rw [detect_move_eq_find prev curr hnil h2 h4 h3]
      unfold find_legal_move fallbackSpec
      exact findLegalGo_eq_find? prev curr (legalMoves prev)
  refine ⟨hspec, ?_⟩
  intro hall
  rw [hspec]
  unfold fallbackSpec
  rw [List.find?_eq_none]
  intro m hm
  rw [hall m hm]
  exact Bool.false_ne_true

/-- Witness for C7: a genuine en-passant transition; the 3-change fast
path declines (its captured-pawn branch is unreachable), and the fallback
finds the en-passant move a5xb6 as the first cell-wise match. -/
theorem c7_fallback_first_match_witness :
    detect_move epRealPrev epRealCurr = fallbackSpec epRealPrev epRealCurr ∧
    fallbackSpec epRealPrev epRealCurr = some ⟨32, 41, none⟩ :=
  ⟨(c7_fallback_first_match epRealPrev epRealCurr (by decide) (by decide)
      (by decide)).1,
   by decide⟩

/-- Claim C4 evaluated at a failing input (code bug): the square diff of
`epShapePrev` versus `epShapeCurr` has exactly 3 changed squares, a pawn
vanishes from a5 (square 32) and appears on b6 (square 41) with a file
difference of exactly 1, and a third square b5 (square 33, distinct from
the destination) loses its pawn — yet `_detect_move` returns `None`
instead of the claimed EnPassant move, because the source's third `elif`
condition duplicates the first one, so its `captured_square` is never
assigned and the en-passant branch is dead code (the legal-move fallback
also fails here since the capture is not legal in `epShapePrev`). -/
theorem c4_en_passant_dead_code :
    (boardChanges epShapePrev epShapeCurr).length = 3 ∧
    epShapePrev.piece_at 32 = some ⟨PieceType.pawn, Color.white⟩ ∧
    epShapeCurr.piece_at 32 = none ∧
    epShapePrev.piece_at 41 = none ∧
    epShapeCurr.piece_at 41 = some ⟨PieceType.pawn, Color.white⟩ ∧
    squareFile 32 + 1 = squareFile 41 ∧
    epShapePrev.piece_at 33 = some ⟨PieceType.pawn, Color.black⟩ ∧
    epShapeCurr.piece_at 33 = none ∧
    (33 : Nat) ≠ 41 ∧
    detect_move epShapePrev epShapeCurr = none := by
  refine ⟨by decide, by decide, by decide, by decide, by decide, by decide,
    by decide, by decide, by decide, by decide⟩

/-- Claim C5 evaluated at a failing input (code bug): the square diff of
`castleShapePrev` versus `castleShapeCurr` has exactly 4 changed squares,
a king vanishes from e1 (square 4) and appears on c1 (square 2) — a file
displacement of exactly 2 — and a rook vanishes from a1 (square 0) and
appears on d1 (square 3); the claim requires a Castle move keyed e1-c1,
but `_detect_move` returns `None`: the guard `if king_from and king_to
and rook_from and rook_to` uses Python truthiness, square a1 is the
integer 0 and is falsy, so the castling branch is skipped (and the
legal-move fallback fails because castling rights are absent). -/
theorem c5_castle_truthiness :
    (boardChanges castleShapePrev castleShapeCurr).length = 4 ∧
    castleShapePrev.piece_at 4 = some ⟨PieceType.king, Color.white⟩ ∧
    castleShapeCurr.piece_at 4 = none ∧
    castleShapePrev.piece_at 2 = none ∧
    castleShapeCurr.piece_at 2 = some ⟨PieceType.king, Color.white⟩ ∧
    castleShapePrev.piece_at 0 = some ⟨PieceType.rook, Color.white⟩ ∧
    castleShapeCurr.piece_at 0 = none ∧
    castleShapePrev.piece_at 3 = none ∧
    castleShapeCurr.piece_at 3 = some ⟨PieceType.rook, Color.white⟩ ∧
    squareFile 2 + 2 = squareFile 4 ∧
    detect_move castleShapePrev castleShapeCurr = none := by
  refine ⟨by decide, by decide, by decide, by decide, by decide, by decide,
    by decide, by decide, by decide, by decide, by decide⟩

/-- Counterexample to claim C6 as stated: `get_fen` replays from the
standard starting position, not from the Game Record's initial snapshot;
with an empty move list and an empty-board initial snapshot the two
disagree. -/
theorem c6_counterexample :
    (get_fen (set_moves (generatorInit "2024.01.01") []) none).1 ≠
      renderFenClaim emptyBoard (set_moves (generatorInit "2024.01.01") [])
        none := by
  decide

/-- Claim C6 (amended): `render_fen` returns the FEN of the position
reached by replaying moves `[0, min(index, move count))` from the
standard starting position; a `None` index means the full move count, an
index above the move count is clamped to it, and the call leaves the
generator state unchanged. -/
theorem c6_render_fen (s : GenState) (idx : Option Int) :
    (get_fen s idx).1 = renderFenClaim startBoard s idx ∧
    (get_fen s idx).2 = s := by
  unfold get_fen renderFenClaim
  by_cases hnil : s.moves = []
  · rw [if_pos hnil, hnil]
    dsimp only
    rw [List.take_nil]
    exact ⟨rfl, rfl⟩
  · rw [if_neg hnil]
    exact ⟨rfl, rfl⟩

/-- Counterexample to claim C3 as stated: rendering the PGN of the
fool's mate game overwrites the generator's Result header (from the
default "*" to "0-1"), so `get_pgn` is not free of state mutation. -/
theorem c3_counterexample :
    lookupHeader foolsGen.headers "Result" = some "*" ∧
    lookupHeader (get_pgn foolsGen true).2.headers "Result" = some "0-1" := by
  refine ⟨by decide, by decide⟩

/-- Claim C3 (amended): the move-list, move-pair, formatted-move-list and
FEN renderers leave the generator state unchanged; `get_pgn` leaves it
unchanged exactly when the replayed final position triggers no result
update (no checkmate and no draw condition, or an empty move list), and
otherwise overwrites the Result header with the derived result token. -/
theorem c3_renderer_effects :
    (∀ s : GenState, (get_move_list s).2 = s) ∧
    (∀ s : GenState, (get_move_pairs s).2 = s) ∧
    (∀ s : GenState, (get_formatted_move_list s).2 = s) ∧
    (∀ (s : GenState) (idx : Option Int), (get_fen s idx).2 = s) ∧
    (∀ (s : GenState) (ih : Bool), pgnResultUpdate s.moves = none →
      (get_pgn s ih).2 = s) ∧
    (∀ (s : GenState) (ih : Bool) (r : String),
      pgnResultUpdate s.moves = some r →
      (get_pgn s ih).2 = { s with headers := dictSet s.headers "Result" r }) := by
  have hml : ∀ s : GenState, (get_move_list s).2 = s := by
    intro s
    unfold get_move_list
    split <;> rfl
  have hmp : ∀ s : GenState, (get_move_pairs s).2 = s := by
    intro s
    unfold get_move_pairs
    dsimp only
    exact hml s
  have hfm : ∀ s : GenState, (get_formatted_move_list s).2 = s := by
    intro s
    unfold get_formatted_move_list
    dsimp only
    exact hmp s
  have hfen : ∀ (s : GenState) (idx : Option Int), (get_fen s idx).2 = s := by
    intro s idx
    unfold get_fen
    split <;> rfl
  have hp1 : ∀ (s : GenState) (ih : Bool), pgnResultUpdate s.moves = none →
      (get_pgn s ih).2 = s := by
    intro s ih h
    rw [get_pgn_state, h]
  have hp2 : ∀ (s : GenState) (ih : Bool) (r : String),
      pgnResultUpdate s.moves = some r →
      (get_pgn s ih).2 =
        { s with headers := dictSet s.headers "Result" r } := by
    intro s ih r h
    rw [get_pgn_state, h]
  exact ⟨hml, hmp, hfm, hfen, hp1, hp2⟩

/-- Witness for C3 (amended): the 1.e4 game triggers no result update
and its PGN rendering leaves the state unchanged; the fool's mate game
derives "0-1" and rewrites exactly the Result header. -/
theorem c3_renderer_effects_witness :
    (pgnResultUpdate e4Gen.moves = none ∧ (get_pgn e4Gen true).2 = e4Gen) ∧
    (pgnResultUpdate foolsGen.moves = some "0-1" ∧
      (get_pgn foolsGen true).2 =
        { foolsGen with headers := dictSet foolsGen.headers "Result" "0-1" }) :=
  ⟨⟨by decide, c3_renderer_effects.2.2.2.2.1 e4Gen true (by decide)⟩,
   ⟨by decide, c3_renderer_effects.2.2.2.2.2 foolsGen true "0-1" (by decide)⟩⟩

end ChessVision
